import Mathlib

/-!
Verification of the Biomni-Web conversation controller and log renderer.

The embedding follows `src/frontend/src/App.tsx` (the `handleSend` handler
and the app state), `src/frontend/src/api.ts` (the collaborator contract),
and the `LogViewer` component (collapsible trace display).
-/

namespace BiomniWeb

/-- Primitive JSON-like values, the payload of a trace-step field
(`[key: string]: any` in the TypeScript `LogStep` interface). -/
inductive Json where
  | str (s : String)
  | num (n : Int)
  | bool (b : Bool)
  | null
deriving Repr, DecidableEq

/-- `LogStep` from `types.ts` / `App.tsx`: an open record, i.e. an ordered
association of string keys to arbitrary values (all declared fields are
optional and `[key: string]: any` admits any key set). -/
abbrev LogStep := List (String × Json)

/-- The `role` field of `ChatMessage`: `'user' | 'assistant'`. -/
inductive Role where
  | user
  | assistant
deriving Repr, DecidableEq

/-- `ChatMessage` from `App.tsx`: role, content, optional logs, and the
optional pending flag `isLoading` (absent in TS is falsy, so `Bool` with
default `false`). -/
structure ChatMessage where
  role : Role
  content : String
  logs : Option (List LogStep) := none
  isLoading : Bool := false
deriving Repr, DecidableEq

/-- `ChatResponse` from `api.ts`: the successful collaborator payload. -/
structure ChatResponse where
  response : String
  logs : List LogStep
deriving Repr, DecidableEq

/-- The controller state owned by `App`: the input buffer, the message
list, and the global in-flight flag. -/
structure AppState where
  input : String
  messages : List ChatMessage
  isLoading : Bool
deriving Repr, DecidableEq

/-- JavaScript `String.prototype.trim` as called by `input.trim()`:
strip whitespace from both ends of the string. -/
def jsTrim (s : String) : String :=
  ⟨((s.data.dropWhile Char.isWhitespace).reverse.dropWhile Char.isWhitespace).reverse⟩

/-- The fixed error text placed in the chat on any collaborator failure
(`App.tsx`, catch branch). -/
def errorMessageText : String := "Error: Failed to connect to Biomni backend."

/-- The user message appended on submit: `{ role: 'user', content: input }`. -/
def mkUserMsg (text : String) : ChatMessage :=
  { role := .user, content := text }

/-- The placeholder appended on submit:
`{ role: 'assistant', content: '', isLoading: true }`. -/
def pendingMsg : ChatMessage :=
  { role := .assistant, content := "", isLoading := true }

/-- The finalized assistant message on success:
`{ role: 'assistant', content: data.response, logs: data.logs }`. -/
def successMsg (data : ChatResponse) : ChatMessage :=
  { role := .assistant, content := data.response, logs := some data.logs }

/-- The assistant message installed in the catch branch:
`{ role: 'assistant', content: 'Error: ...' }` (no logs). -/
def errorMsg : ChatMessage :=
  { role := .assistant, content := errorMessageText }

/-- The synchronous prefix of `handleSend`, run before the `await`:
append the user message, clear the input, set `isLoading`, and append the
pending placeholder (all via functional `setState` updates, so they
compose as list appends on the previous snapshot). -/
def handleSendStart (s : AppState) : AppState :=
  { input := "",
    messages := s.messages ++ [mkUserMsg s.input, pendingMsg],
    isLoading := true }

/-- The resolution of `handleSend` once the collaborator settles: on
success pop the last message and append the finalized one; in the catch
branch pop the last message and append the fixed error message; the
`finally` branch clears `isLoading` either way. The error carries an
arbitrary description (the catch ignores its value). -/
def handleSendResolve (s : AppState) (result : Except String ChatResponse) : AppState :=
  match result with
  | .ok data =>
      { s with messages := s.messages.dropLast ++ [successMsg data],
               isLoading := false }
  | .error _ =>
      { s with messages := s.messages.dropLast ++ [errorMsg],
               isLoading := false }

/-- Result of one `handleSend` invocation: the final state together with
the list of request bodies handed to `sendMessage` during the call. -/
structure SendOutcome where
  state : AppState
  requests : List String
deriving Repr, DecidableEq

/-- `handleSend` as a whole, parametrised by how the single collaborator
call settles. The guard `if (!input.trim() || isLoading) return;` makes
the call a no-op; otherwise the body runs the synchronous prefix, issues
exactly one request carrying `userMsg.content` (the untrimmed input), and
resolves. -/
def handleSend (s : AppState) (result : Except String ChatResponse) : SendOutcome :=
  if jsTrim s.input = "" ∨ s.isLoading = true then
    ⟨s, []⟩
  else
    ⟨handleSendResolve (handleSendStart s) result, [s.input]⟩

/-- Number of messages whose pending flag is set. -/
def pendingCount (msgs : List ChatMessage) : Nat :=
  (msgs.filter (fun m => m.isLoading)).length

/-- Serialization of one primitive value, as `JSON.stringify` prints it. -/
def stringifyJson : Json → String
  | .str s => "\"" ++ s ++ "\""
  | .num n => toString n
  | .bool b => if b then "true" else "false"
  | .null => "null"

/-- One `"key": value` field line of `JSON.stringify(log, null, 2)`,
indented by the two-space level. -/
def stringifyField (k : String) (v : Json) : String :=
  "  \"" ++ k ++ "\": " ++ stringifyJson v

/-- The comma-and-newline-separated field lines of
`JSON.stringify(log, null, 2)`. -/
def stringifyFields : List (String × Json) → String
  | [] => ""
  | (k, v) :: rest =>
      stringifyField k v ++ (if rest.isEmpty then "" else ",\n") ++ stringifyFields rest

/-- `JSON.stringify(log, null, 2)` applied to a flat trace-step record:
braces around the indented field lines (an empty record prints as just
the brace pair). -/
def stringifyLog (log : LogStep) : String :=
  if log.isEmpty then "\x7b\x7d"
  else "\x7b\n" ++ stringifyFields log ++ "\n\x7d"

/-- One rendered step block inside the expanded `LogViewer` body: the
bold `Step {idx + 1}` header number and the `<pre>` body text. -/
structure LogBlock where
  header : Nat
  body : String
deriving Repr, DecidableEq

/-- What `LogViewer` renders: either nothing at all (`return null`), or a
single collapsible control labelled with the step count whose body is
`none` while collapsed and the ordered block list when expanded. -/
inductive LogView where
  | empty : LogView
  | control (count : Nat) (body : Option (List LogBlock)) : LogView
deriving Repr, DecidableEq

/-- The expanded body: `logs.map((log, idx) => ...)`, showing `Step idx+1`
and `JSON.stringify(log, null, 2)` for each step in order. -/
def renderBlocks (logs : List LogStep) : List LogBlock :=
  logs.enum.map (fun p => ⟨p.1 + 1, stringifyLog p.2⟩)

/-- The `LogViewer` component as a function of its `logs` prop and its
local `isOpen` state: `if (!logs || logs.length === 0) return null;`, else
one control labelled `logs.length` whose body appears iff `isOpen`. -/
def renderLogViewer (logs : Option (List LogStep)) (isOpen : Bool) : LogView :=
  match logs with
  | none => .empty
  | some l =>
      if l.length = 0 then .empty
      else .control l.length (if isOpen then some (renderBlocks l) else none)

/-- The initial value of the `isOpen` state: `useState(false)`. -/
def initialOpen : Bool := false

/-- The local state of one `LogViewer` instance. -/
structure ViewerState where
  isOpen : Bool
deriving Repr, DecidableEq

/-- The click handler of the collapse button: `setIsOpen(!isOpen)`. -/
def toggleOpen (v : ViewerState) : ViewerState :=
  ⟨!v.isOpen⟩

/-- The two user events the embedded app reacts to. -/
inductive UiEvent where
  | toggleLogs
  | submitForm (result : Except String ChatResponse)

/-- The whole observable state: controller state plus the local state of
the log viewer. -/
structure UiState where
  app : AppState
  viewer : ViewerState
deriving Repr, DecidableEq

/-- One event step of the app, returning the next state and the request
bodies dispatched while handling the event. The toggle handler only calls
`setIsOpen`; the form submission runs `handleSend`. -/
def uiStep (st : UiState) : UiEvent → UiState × List String
  | .toggleLogs => (⟨st.app, toggleOpen st.viewer⟩, [])
  | .submitForm r =>
      let o := handleSend st.app r
      (⟨o.state, st.viewer⟩, o.requests)

/-- `sub` occurs contiguously inside `s`. -/
def containsSub (sub s : String) : Prop :=
  ∃ l r, s.data = l ++ sub.data ++ r

/-! ## The unvalidated transport layer

`sendMessage` in `api.ts` is `axios.post<ChatResponse>` followed by
`return response.data`: the type argument is erased at runtime and the
body is never validated. Under the default axios configuration the
promise rejects exactly on transport failure or a non-2xx status, while
every 2xx body resolves (JSON is parsed silently, anything else passes
through as-is), whatever its shape. The definitions below refine the
typed `Except` outcome used by `handleSend` with that behaviour, so that
the fate of a malformed 2xx body can be stated. -/

/-- A resolved 2xx body as the `await` delivers it: the two fields the
controller reads, each possibly the JavaScript `undefined` (`none`) when
the body does not carry it. -/
structure ResolvedBody where
  response : Option String
  logs : Option (List LogStep)
deriving Repr, DecidableEq

/-- How the axios promise inside `sendMessage` settles: rejected (network
error or non-2xx status), or resolved with an arbitrary, unvalidated
body. -/
inductive AxiosSettled where
  | rejected (reason : String)
  | resolved (body : ResolvedBody)
deriving Repr, DecidableEq

/-- Whether a resolved body actually matches the declared `ChatResponse`
shape (`response: string` and `logs: TraceStep[]` both present). Nothing
in `api.ts` or `App.tsx` checks this at runtime. -/
def wellShapedBody (body : ResolvedBody) : Bool :=
  body.response.isSome && body.logs.isSome

/-- A chat message as the success branch can really produce it from an
unvalidated body: `content: data.response` may be `undefined`, hence
`Option String` here; `ChatMessage` is the well-typed restriction of
this. -/
structure RawChatMessage where
  role : Role
  content : Option String
  logs : Option (List LogStep) := none
  isLoading : Bool := false
deriving Repr, DecidableEq

/-- The injection of a well-typed message into the raw message type. -/
def rawOfMsg (m : ChatMessage) : RawChatMessage :=
  ⟨m.role, some m.content, m.logs, m.isLoading⟩

/-- The resolution of `handleSend` over the raw transport outcome: the
catch branch runs only when the promise rejects; every resolved body —
well-shaped or not — runs the success branch of `App.tsx`, which pops
the placeholder and installs `data.response` and `data.logs` exactly as
they came. -/
def handleSendResolveRaw (msgs : List RawChatMessage) (settled : AxiosSettled) :
    List RawChatMessage :=
  match settled with
  | .resolved body => msgs.dropLast ++ [⟨.assistant, body.response, body.logs, false⟩]
  | .rejected _ => msgs.dropLast ++ [⟨.assistant, some errorMessageText, none, false⟩]

/-! ## Helper lemmas -/

theorem dropLast_append_two {α : Type} (l : List α) (a b : α) :
    (l ++ [a, b]).dropLast = l ++ [a] := by
  simp [← List.append_assoc]

theorem handleSend_accept (s : AppState) (r : Except String ChatResponse)
    (hne : jsTrim s.input ≠ "") (hnl : s.isLoading = false) :
    handleSend s r = ⟨handleSendResolve (handleSendStart s) r, [s.input]⟩ := by
  unfold handleSend
  rw [if_neg]
  simp [hne, hnl]

theorem containsSub_append_left (sub s t : String) (h : containsSub sub s) :
    containsSub sub (t ++ s) := by
  obtain ⟨l, r, hh⟩ := h
  exact ⟨t.data ++ l, r, by simp [String.data_append, hh]⟩

theorem containsSub_append_right (sub s t : String) (h : containsSub sub s) :
    containsSub sub (s ++ t) := by
  obtain ⟨l, r, hh⟩ := h
  exact ⟨l, r ++ t.data, by simp [String.data_append, hh]⟩

theorem containsSub_key_field (k : String) (v : Json) :
    containsSub ("\"" ++ k ++ "\"") (stringifyField k v) := by
  refine ⟨"  ".data, (": " ++ stringifyJson v).data, ?_⟩
  simp [stringifyField, String.data_append]

/-- On a rejected promise the raw resolution coincides with the typed
error branch of `handleSendResolve` (the fixed error text, no logs). -/
theorem resolveRaw_agrees_rejected (msgs : List ChatMessage) (e : String) :
    handleSendResolveRaw (msgs.map rawOfMsg) (.rejected e)
      = (msgs.dropLast ++ [errorMsg]).map rawOfMsg := by
  simp [handleSendResolveRaw, errorMsg, rawOfMsg, List.map_dropLast]

/-- On a well-shaped resolved body the raw resolution coincides with the
typed success branch of `handleSendResolve`. -/
theorem resolveRaw_agrees_ok (msgs : List ChatMessage) (data : ChatResponse) :
    handleSendResolveRaw (msgs.map rawOfMsg)
        (.resolved ⟨some data.response, some data.logs⟩)
      = (msgs.dropLast ++ [successMsg data]).map rawOfMsg := by
  simp [handleSendResolveRaw, successMsg, rawOfMsg, List.map_dropLast]

/-! ## Claims -/

/-- C1: for every input that is non-empty after trimming, with no request
in flight, `handleSend` synchronously appends exactly two messages to the
conversation — the user message carrying the submitted text, then the
pending assistant placeholder with empty content — clears the input
buffer and sets `isLoading`, and only afterwards does the asynchronous
resolution act (on the started state). -/
theorem submit_appends_two_messages (s : AppState) (r : Except String ChatResponse)
    (hne : jsTrim s.input ≠ "") (hnl : s.isLoading = false) :
    (handleSend s r).state = handleSendResolve (handleSendStart s) r
    ∧ (handleSendStart s).messages =
        s.messages ++ [{ role := .user, content := s.input },
                       { role := .assistant, content := "", isLoading := true }]
    ∧ (handleSendStart s).input = ""
    ∧ (handleSendStart s).isLoading = true := by
  refine ⟨?_, rfl, rfl, rfl⟩
  rw [handleSend_accept s r hne hnl]

/-- C1 witness at a concrete state. -/
theorem submit_appends_two_messages_witness :
    jsTrim "hi" ≠ ""
    ∧ (handleSendStart ⟨"hi", [], false⟩).messages =
        [] ++ [{ role := .user, content := "hi" },
               { role := .assistant, content := "", isLoading := true }] :=
  ⟨by decide,
   (submit_appends_two_messages ⟨"hi", [], false⟩ (.ok ⟨"ok", []⟩) (by decide) rfl).2.1⟩

/-- C2: on an input that trims to empty, or while a request is in flight,
`handleSend` is a no-op: the state (messages, input buffer, `isLoading`)
is unchanged and no request is dispatched. -/
theorem submit_noop (s : AppState) (r : Except String ChatResponse)
    (h : jsTrim s.input = "" ∨ s.isLoading = true) :
    (handleSend s r).state = s ∧ (handleSend s r).requests = [] := by
  unfold handleSend
  rw [if_pos h]
  exact ⟨rfl, rfl⟩

/-- C2 witness: a whitespace-only input is dropped, and so is a call made
while loading. -/
theorem submit_noop_witness :
    jsTrim "  " = ""
    ∧ (handleSend ⟨"  ", [], false⟩ (.ok ⟨"ok", []⟩)).state = ⟨"  ", [], false⟩
    ∧ (handleSend ⟨"x", [], true⟩ (.ok ⟨"ok", []⟩)).requests = [] :=
  ⟨by decide,
   (submit_noop ⟨"  ", [], false⟩ (.ok ⟨"ok", []⟩) (Or.inl (by decide))).1,
   (submit_noop ⟨"x", [], true⟩ (.ok ⟨"ok", []⟩) (Or.inr rfl)).2⟩

/-- C3: on a successful response the pending placeholder is replaced in
place (same position, last) by the assistant message carrying the
response text and the logs with the pending flag cleared, the list keeps
the length it had right after the initial two-message append, and
`isLoading` is cleared. -/
theorem submit_success_replaces_pending (s : AppState) (data : ChatResponse)
    (hne : jsTrim s.input ≠ "") (hnl : s.isLoading = false) :
    (handleSend s (.ok data)).state.messages =
      s.messages ++ [mkUserMsg s.input,
        { role := .assistant, content := data.response,
          logs := some data.logs, isLoading := false }]
    ∧ (handleSend s (.ok data)).state.messages.length
        = (handleSendStart s).messages.length
    ∧ (handleSend s (.ok data)).state.isLoading = false := by
  rw [handleSend_accept s (.ok data) hne hnl]
  refine ⟨?_, ?_, rfl⟩
  · show (handleSendStart s).messages.dropLast ++ [successMsg data] = _
    rw [show (handleSendStart s).messages = s.messages ++ [mkUserMsg s.input, pendingMsg] from rfl,
        dropLast_append_two]
    simp [successMsg]
  · show ((handleSendStart s).messages.dropLast ++ [successMsg data]).length = _
    rw [show (handleSendStart s).messages = s.messages ++ [mkUserMsg s.input, pendingMsg] from rfl,
        dropLast_append_two]
    simp

/-- C3 witness at a concrete state and response. -/
theorem submit_success_replaces_pending_witness :
    jsTrim "q" ≠ ""
    ∧ (handleSend ⟨"q", [], false⟩ (.ok ⟨"ans", [[("step", Json.str "search")]]⟩)).state.messages =
        [] ++ [mkUserMsg "q",
               { role := .assistant, content := "ans",
                 logs := some [[("step", Json.str "search")]], isLoading := false }] :=
  ⟨by decide,
   (submit_success_replaces_pending ⟨"q", [], false⟩
     ⟨"ans", [[("step", Json.str "search")]]⟩ (by decide) rfl).1⟩

/-- C4, amended: on any collaborator failure that rejects the request
promise (transport failure or non-2xx status), the pending placeholder
is replaced by an assistant message carrying the one fixed error text,
with no logs attached and the pending flag cleared; `isLoading` returns
to `false`, and all rejection causes yield the identical outcome. (A 2xx
response whose body fails the expected shape is not a rejection: it
resolves and runs the success branch — see the counterexample below.) -/
theorem submit_failure_uniform (s : AppState) (e : String)
    (hne : jsTrim s.input ≠ "") (hnl : s.isLoading = false) :
    (handleSend s (.error e)).state.messages =
      s.messages ++ [mkUserMsg s.input,
        { role := .assistant, content := errorMessageText,
          logs := none, isLoading := false }]
    ∧ (handleSend s (.error e)).state.isLoading = false
    ∧ ∀ e2 : String, handleSend s (.error e2) = handleSend s (.error e) := by
  rw [handleSend_accept s (.error e) hne hnl]
  refine ⟨?_, rfl, ?_⟩
  · show (handleSendStart s).messages.dropLast ++ [errorMsg] = _
    rw [show (handleSendStart s).messages = s.messages ++ [mkUserMsg s.input, pendingMsg] from rfl,
        dropLast_append_two]
    simp [errorMsg]
  · intro e2
    rw [handleSend_accept s (.error e2) hne hnl]
    simp [handleSendResolve]

/-- C4 witness: two different rejection causes produce the same state. -/
theorem submit_failure_uniform_witness :
    jsTrim "q" ≠ ""
    ∧ handleSend ⟨"q", [], false⟩ (.error "timeout")
        = handleSend ⟨"q", [], false⟩ (.error "network error") :=
  ⟨by decide,
   (submit_failure_uniform ⟨"q", [], false⟩ "network error" (by decide) rfl).2.2 "timeout"⟩

/-- C4 counterexample: a 2xx body that fails the declared shape — here
`logs` is missing — resolves rather than rejects, so the success branch,
not the catch, replaces the placeholder: the installed assistant message
carries the body's `response` text, which is not the fixed error text.
Shape failures therefore do not produce the error message the claim
promises for every failure cause. -/
theorem shape_failure_bypasses_catch :
    wellShapedBody ⟨some "A", none⟩ = false
    ∧ handleSendResolveRaw
        [⟨.user, some "q", none, false⟩, ⟨.assistant, some "", none, true⟩]
        (.resolved ⟨some "A", none⟩)
      = [⟨.user, some "q", none, false⟩, ⟨.assistant, some "A", none, false⟩]
    ∧ (some "A" : Option String) ≠ some errorMessageText := by
  refine ⟨rfl, rfl, ?_⟩
  decide

/-- C5: starting from a conversation with no pending message, the
synchronous phase of an accepted submit creates exactly one pending
message, and by the time `isLoading` is back to `false` (after
resolution, successful or not) no pending message remains. -/
theorem pending_unique_and_resolved (s : AppState) (r : Except String ChatResponse)
    (hp : pendingCount s.messages = 0)
    (hne : jsTrim s.input ≠ "") (hnl : s.isLoading = false) :
    pendingCount (handleSendStart s).messages = 1
    ∧ pendingCount (handleSend s r).state.messages = 0
    ∧ (handleSend s r).state.isLoading = false := by
  simp only [pendingCount] at hp
  rw [handleSend_accept s r hne hnl]
  refine ⟨?_, ?_, ?_⟩
  · simp [pendingCount, handleSendStart, List.filter_append, hp, mkUserMsg, pendingMsg]
  · cases r with
    | ok data =>
        simp [pendingCount, handleSendResolve, handleSendStart, dropLast_append_two,
              List.filter_append, hp, mkUserMsg, successMsg]
    | error e =>
        simp [pendingCount, handleSendResolve, handleSendStart, dropLast_append_two,
              List.filter_append, hp, mkUserMsg, errorMsg]
  · cases r <;> rfl

/-- C5 witness at a concrete state. -/
theorem pending_unique_and_resolved_witness :
    pendingCount ([] : List ChatMessage) = 0
    ∧ pendingCount (handleSendStart ⟨"q", [], false⟩).messages = 1
    ∧ pendingCount (handleSend ⟨"q", [], false⟩ (.error "down")).state.messages = 0 :=
  ⟨rfl,
   (pending_unique_and_resolved ⟨"q", [], false⟩ (.error "down") rfl (by decide) rfl).1,
   (pending_unique_and_resolved ⟨"q", [], false⟩ (.error "down") rfl (by decide) rfl).2.1⟩

/-- C6: `LogViewer` renders nothing when the `logs` prop is absent or
empty; for a non-empty step list it renders one collapsible control
labelled with the step count, collapsed in the initial state, and the
expanded body holds exactly one block per step, in order, 1-indexed, each
carrying the serialization of its step. -/
theorem logviewer_shape (l : List LogStep) (b : Bool) (hne : l ≠ []) :
    renderLogViewer none b = .empty
    ∧ renderLogViewer (some []) b = .empty
    ∧ initialOpen = false
    ∧ renderLogViewer (some l) false = .control l.length none
    ∧ renderLogViewer (some l) true = .control l.length (some (renderBlocks l))
    ∧ (renderBlocks l).length = l.length
    ∧ ∀ i (h : i < l.length),
        (renderBlocks l)[i]? = some ⟨i + 1, stringifyLog (l.get ⟨i, h⟩)⟩ := by
  have hlen : l.length ≠ 0 := fun hz => hne (List.length_eq_zero.mp hz)
  refine ⟨rfl, rfl, rfl, ?_, ?_, ?_, ?_⟩
  · simp [renderLogViewer, hlen]
  · simp [renderLogViewer, hlen]
  · simp [renderBlocks]
  · intro i h
    have hlt : i < (renderBlocks l).length := by simp [renderBlocks, h]
    rw [List.getElem?_eq_getElem hlt]
    simp [renderBlocks, List.getElem_map, List.getElem_enum]

/-- C6 witness at a concrete two-step trace. -/
theorem logviewer_shape_witness :
    renderLogViewer
        (some [[("step", Json.str "a")], [("step", Json.str "b")]]) false
      = .control 2 none :=
  (logviewer_shape [[("step", Json.str "a")], [("step", Json.str "b")]] false
    (by decide)).2.2.2.1

/-- C7: whatever keys a trace-step record contains, the expanded rendering
of that step contains each of them: the quoted key occurs contiguously in
the `JSON.stringify` serialization the block displays, so no field is
dropped. -/
theorem renderer_keeps_every_key (log : LogStep) (k : String) (v : Json)
    (h : (k, v) ∈ log) :
    containsSub ("\"" ++ k ++ "\"") (stringifyLog log) := by
  have hfields : containsSub ("\"" ++ k ++ "\"") (stringifyFields log) := by
    induction log with
    | nil => cases h
    | cons head tail ih =>
        cases h with
        | head =>
            simp only [stringifyFields]
            exact containsSub_append_right _ _ _
              (containsSub_append_right _ _ _ (containsSub_key_field k v))
        | tail _ hmem =>
            obtain ⟨k2, v2⟩ := head
            simp only [stringifyFields]
            exact containsSub_append_left _ _ _ (ih hmem)
  have hnil : ¬ log.isEmpty = true := by
    cases log with
    | nil => cases h
    | cons a t => simp [List.isEmpty]
  rw [stringifyLog, if_neg hnil]
  exact containsSub_append_right _ _ _ (containsSub_append_left _ _ _ hfields)

/-- C7 witness on a concrete record with a key unknown to the declared
interface. -/
theorem renderer_keeps_every_key_witness :
    (("surprise", Json.num 7) ∈
        ([("step", Json.str "s"), ("surprise", Json.num 7)] : LogStep))
    ∧ containsSub ("\"" ++ "surprise" ++ "\"")
        (stringifyLog [("step", Json.str "s"), ("surprise", Json.num 7)]) :=
  ⟨by decide,
   renderer_keeps_every_key [("step", Json.str "s"), ("surprise", Json.num 7)]
     "surprise" (.num 7) (by decide)⟩

/-- C8: rendering the trace is a pure function of the steps and the
expansion flag, and the toggle event only flips the viewer's local flag —
the conversation state is untouched, no request is dispatched, and two
toggles restore the original display. -/
theorem toggle_local_render_pure (st : UiState) (logs : Option (List LogStep)) :
    (uiStep st .toggleLogs).1.app = st.app
    ∧ (uiStep st .toggleLogs).2 = []
    ∧ (uiStep st .toggleLogs).1.viewer = toggleOpen st.viewer
    ∧ toggleOpen (toggleOpen st.viewer) = st.viewer
    ∧ renderLogViewer logs (toggleOpen (toggleOpen st.viewer)).isOpen
        = renderLogViewer logs st.viewer.isOpen := by
  refine ⟨rfl, rfl, rfl, ?_, ?_⟩ <;> simp [toggleOpen]

/-- C9: an accepted submit dispatches exactly one request, carrying the
submitted text, and a failing resolution dispatches exactly the same
requests as a successful one — no retry ever happens. -/
theorem one_request_no_retry (s : AppState) (r : Except String ChatResponse)
    (hne : jsTrim s.input ≠ "") (hnl : s.isLoading = false) :
    (handleSend s r).requests = [s.input]
    ∧ (handleSend s r).requests.length = 1
    ∧ ∀ (e : String) (data : ChatResponse),
        (handleSend s (.error e)).requests = (handleSend s (.ok data)).requests := by
  rw [handleSend_accept s r hne hnl]
  refine ⟨rfl, rfl, ?_⟩
  intro e data
  rw [handleSend_accept s (.error e) hne hnl, handleSend_accept s (.ok data) hne hnl]

/-- C9 witness at a concrete state. -/
theorem one_request_no_retry_witness :
    jsTrim "q" ≠ ""
    ∧ (handleSend ⟨"q", [], false⟩ (.error "down")).requests = ["q"] :=
  ⟨by decide,
   (one_request_no_retry ⟨"q", [], false⟩ (.error "down") (by decide) rfl).1⟩

/-- C10: in the state an accepted submit creates, the pending message is
the last element of the list, an assistant message with empty content; no
earlier message is pending, and the replacement step (drop the last
element, append the finalized message) leaves the prefix — everything up
to and including the user message of the same submit — untouched, so it
targets exactly that placeholder. -/
theorem pending_last_placeholder (s : AppState) (r : Except String ChatResponse)
    (hp : pendingCount s.messages = 0)
    (hne : jsTrim s.input ≠ "") (hnl : s.isLoading = false) :
    (handleSendStart s).messages.getLast? = some pendingMsg
    ∧ pendingMsg.role = .assistant
    ∧ pendingMsg.content = ""
    ∧ pendingMsg.isLoading = true
    ∧ (handleSendStart s).messages.dropLast = s.messages ++ [mkUserMsg s.input]
    ∧ (∀ m ∈ (handleSendStart s).messages.dropLast, m.isLoading = false)
    ∧ (handleSend s r).state.messages.dropLast
        = (handleSendStart s).messages.dropLast := by
  have hmsgs : (handleSendStart s).messages
      = s.messages ++ [mkUserMsg s.input, pendingMsg] := rfl
  have hdrop : (handleSendStart s).messages.dropLast = s.messages ++ [mkUserMsg s.input] := by
    rw [hmsgs, dropLast_append_two]
  have hprior : ∀ m ∈ s.messages, m.isLoading = false := by
    intro m hm
    have := (List.filter_eq_nil_iff.mp
      (List.length_eq_zero.mp hp)) m hm
    simpa using this
  refine ⟨?_, rfl, rfl, rfl, hdrop, ?_, ?_⟩
  · rw [hmsgs]
    simp
  · intro m hm
    rw [hdrop] at hm
    rcases List.mem_append.mp hm with hm | hm
    · exact hprior m hm
    · rw [List.mem_singleton.mp hm]; rfl
  · rw [handleSend_accept s r hne hnl]
    cases r with
    | ok data =>
        show ((handleSendStart s).messages.dropLast ++ [successMsg data]).dropLast = _
        simp
    | error e =>
        show ((handleSendStart s).messages.dropLast ++ [errorMsg]).dropLast = _
        simp

/-- C10 witness at a concrete state. -/
theorem pending_last_placeholder_witness :
    pendingCount ([] : List ChatMessage) = 0
    ∧ (handleSendStart ⟨"q", [], false⟩).messages.getLast? = some pendingMsg :=
  ⟨rfl,
   (pending_last_placeholder ⟨"q", [], false⟩ (.ok ⟨"a", []⟩) rfl (by decide) rfl).1⟩

end BiomniWeb
